import Mathlib

/-!
Shallow embedding of the image bulk optimizer (`imgopt.py`): statistics
accumulation, encoder policy, content-based naming with BLAKE2b digests,
collision handling, the per-file optimization pipeline and the background
worker loop, together with theorems about their behaviour.
-/

set_option maxRecDepth 100000

namespace ImgOpt

/-! ### 64-bit arithmetic helpers (BLAKE2b works on 64-bit words) -/

def M64 : Nat := 2 ^ 64

def add64 (a b : Nat) : Nat := (a + b) % M64

def rotr64 (x n : Nat) : Nat := ((x >>> n) ||| (x <<< (64 - n))) % M64

/-! ### BLAKE2b (RFC 7693), unkeyed, digest size 4 — models
`hashlib.blake2b(digest_size=4)` used by `slug_for`. -/

def blakeIV : List Nat :=
  [0x6a09e667f3bcc908, 0xbb67ae8584caa73b, 0x3c6ef372fe94f82b, 0xa54ff53a5f1d36f1,
   0x510e527fade682d1, 0x9b05688c2b3e6c1f, 0x1f83d9abfb41bd6b, 0x5be0cd19137e2179]

def blakeSigma : List (List Nat) :=
  [[0, 1, 2, 3, 4, 5, 6, 7, 8, 9, 10, 11, 12, 13, 14, 15],
   [14, 10, 4, 8, 9, 15, 13, 6, 1, 12, 0, 2, 11, 7, 5, 3],
   [11, 8, 12, 0, 5, 2, 15, 13, 10, 14, 3, 6, 7, 1, 9, 4],
   [7, 9, 3, 1, 13, 12, 11, 14, 2, 6, 5, 10, 4, 0, 15, 8],
   [9, 0, 5, 7, 2, 4, 10, 15, 14, 1, 11, 12, 6, 8, 3, 13],
   [2, 12, 6, 10, 0, 11, 8, 3, 4, 13, 7, 5, 15, 14, 1, 9],
   [12, 5, 1, 15, 14, 13, 4, 10, 0, 7, 6, 3, 9, 2, 8, 11],
   [13, 11, 7, 14, 12, 1, 3, 9, 5, 0, 15, 4, 8, 6, 2, 10],
   [6, 15, 14, 9, 11, 3, 0, 8, 12, 2, 13, 7, 1, 4, 10, 5],
   [10, 2, 8, 4, 7, 6, 1, 5, 15, 11, 9, 14, 3, 12, 13, 0]]

def gMix (v : List Nat) (a b c d x y : Nat) : List Nat :=
  let va := add64 (add64 (v.getD a 0) (v.getD b 0)) x
  let vd := rotr64 ((v.getD d 0) ^^^ va) 32
  let vc := add64 (v.getD c 0) vd
  let vb := rotr64 ((v.getD b 0) ^^^ vc) 24
  let va := add64 (add64 va vb) y
  let vd := rotr64 (vd ^^^ va) 16
  let vc := add64 vc vd
  let vb := rotr64 (vb ^^^ vc) 63
  ((((v.set a va).set b vb).set c vc).set d vd)

def blakeRound (m : List Nat) (v : List Nat) (r : Nat) : List Nat :=
  let s := blakeSigma.getD (r % 10) []
  let mAt : Nat → Nat := fun i => m.getD (s.getD i 0) 0
  let v := gMix v 0 4 8 12 (mAt 0) (mAt 1)
  let v := gMix v 1 5 9 13 (mAt 2) (mAt 3)
  let v := gMix v 2 6 10 14 (mAt 4) (mAt 5)
  let v := gMix v 3 7 11 15 (mAt 6) (mAt 7)
  let v := gMix v 0 5 10 15 (mAt 8) (mAt 9)
  let v := gMix v 1 6 11 12 (mAt 10) (mAt 11)
  let v := gMix v 2 7 8 13 (mAt 12) (mAt 13)
  gMix v 3 4 9 14 (mAt 14) (mAt 15)

def blakeCompress (h m : List Nat) (t : Nat) (isLast : Bool) : List Nat :=
  let v := h ++ blakeIV
  let v := v.set 12 ((v.getD 12 0) ^^^ (t % M64))
  let v := v.set 13 ((v.getD 13 0) ^^^ (t / M64))
  let v := if isLast then v.set 14 ((v.getD 14 0) ^^^ (M64 - 1)) else v
  let v := (List.range 12).foldl (blakeRound m) v
  (List.range 8).map (fun i => ((h.getD i 0) ^^^ (v.getD i 0)) ^^^ (v.getD (i + 8) 0))

/-- Little-endian 8-byte word read from position `8*i` of a 128-byte block. -/
def leWord (block : List Nat) (i : Nat) : Nat :=
  (List.range 8).foldr (fun j acc => acc * 256 + block.getD (8 * i + j) 0) 0

def toWords (block : List Nat) : List Nat :=
  (List.range 16).map (leWord block)

/-- BLAKE2b with no key and digest size 4: returns the 4 output bytes. -/
def blake2b4 (msg : List Nat) : List Nat :=
  let len := msg.length
  let nb := if len = 0 then 1 else (len + 127) / 128
  let h0 := blakeIV.set 0 ((blakeIV.getD 0 0) ^^^ 0x01010004)
  let hf := (List.range nb).foldl
    (fun h i =>
      let block := (msg.drop (128 * i)).take 128
      blakeCompress h (toWords block) (min len (128 * (i + 1))) (i + 1 = nb)) h0
  let w := hf.getD 0 0
  [w % 256, w / 256 % 256, w / 65536 % 256, w / 16777216 % 256]

/-! ### Hex rendering (`hexdigest`) -/

def hexDigitChar (n : Nat) : Char :=
  if n < 10 then Char.ofNat (48 + n) else Char.ofNat (87 + n)

def hexByte (b : Nat) : List Char :=
  [hexDigitChar (b / 16), hexDigitChar (b % 16)]

/-- Hex rendering, as in hexdigest: each byte becomes two lowercase hex characters. -/
def hexStr (bs : List Nat) : String :=
  ⟨(bs.map hexByte).flatten⟩

/-! ### File paths, following `pathlib.PurePath` semantics

A path is a directory (list of components) plus a file name.  `stem` and
`suffix` split the name at its last dot, with pathlib's guard that the dot
is neither the first nor the last character of the name. -/

structure FsPath where
  dir : List String
  name : String
deriving DecidableEq, Repr

/-- Split a file name into `(stem, suffix)` the way `pathlib` does: the
suffix starts at the last dot, provided that dot is neither at position 0
nor the final character; otherwise the suffix is empty. -/
def splitStemSuffix (name : String) : String × String :=
  let cs := name.data
  let extLen := (cs.reverse.takeWhile (fun c => c ≠ '.')).length
  if extLen + 1 < cs.length ∧ 0 < extLen then
    (⟨cs.take (cs.length - extLen - 1)⟩, ⟨cs.drop (cs.length - extLen - 1)⟩)
  else (name, "")

def FsPath.stem (p : FsPath) : String := (splitStemSuffix p.name).1

def FsPath.suffix (p : FsPath) : String := (splitStemSuffix p.name).2

/-- Model of Path.with_suffix: replace the suffix, keeping the stem. -/
def FsPath.with_suffix (p : FsPath) (s : String) : FsPath :=
  { dir := p.dir, name := p.stem ++ s }

/-- Model of Path.with_stem: replace the stem, keeping the suffix. -/
def FsPath.with_stem (p : FsPath) (s : String) : FsPath :=
  { dir := p.dir, name := s ++ p.suffix }

/-- Rendering of str(path): components joined with `/`. -/
def pathStr (p : FsPath) : String :=
  String.intercalate "/" (p.dir ++ [p.name])

/-- Model of str.lstrip of a single dot character, as used on the suffix. -/
def lstripDot (s : String) : String := ⟨s.data.dropWhile (· = '.')⟩

/-- Model of str.lower() on the character list (the suffixes it is applied to are
ASCII). -/
def strLower (s : String) : String := ⟨s.data.map Char.toLower⟩

/-- Substring test over character lists (used to state that a recorded
failure entry carries no reason text). -/
def isSubAt (needle hay : List Char) : Bool :=
  (List.range (hay.length + 1)).any (fun i => needle.isPrefixOf (hay.drop i))

/-! ### Images

A decoded image: dimensions, colour mode, raw pixel bytes (`tobytes()`),
and an auxiliary metadata block (EXIF/ICC/text chunks). -/

structure Img where
  width : Nat
  height : Nat
  mode : String
  data : List Nat
  meta : List (String × String)
deriving DecidableEq, Repr

/-- Metadata stripping: rebuild the image from mode, size and pixel data only;
no metadata survives (`Image.new` + `putdata`). -/
def strip_exif (img : Img) : Img :=
  { width := img.width, height := img.height, mode := img.mode,
    data := img.data, meta := [] }

/-- Digest used by `slug_for`: BLAKE2b (digest size 4) over the first
32768 bytes of the raw decoded pixel buffer (`img.tobytes()[:32_768]`). -/
def pixel_digest (img : Img) : String :=
  hexStr (blake2b4 (img.data.take 32768))

/-- Content-based naming, slug_for(src, img): `"<stem>-<width>x<height>-<digest>.<ext>"` where
`ext` is the source suffix lower-cased with its leading dot stripped. -/
def slug_for (src : FsPath) (img : Img) : String :=
  let stem := src.stem
  let ext := lstripDot (strLower src.suffix)
  stem ++ "-" ++ toString img.width ++ "x" ++ toString img.height ++ "-" ++
    pixel_digest img ++ "." ++ ext

/-! ### Stats -/

structure Stats where
  total_files : Nat := 0
  optimized_files : Nat := 0
  total_original_bytes : Nat := 0
  total_optimized_bytes : Nat := 0
  failures : List String := []
deriving DecidableEq, Repr

/-- Percent saved (exact-rational model of the float division). -/
def Stats.percent_saved (s : Stats) : ℚ :=
  if s.total_original_bytes = 0 then 0
  else 100 * ((s.total_original_bytes : ℚ) - (s.total_optimized_bytes : ℚ)) /
    (s.total_original_bytes : ℚ)

def Stats.add (s : Stats) (original_size new_size : Nat) : Stats :=
  { s with
    total_files := s.total_files + 1,
    optimized_files := s.optimized_files + 1,
    total_original_bytes := s.total_original_bytes + original_size,
    total_optimized_bytes := s.total_optimized_bytes + new_size }

/-! ### Encoder policy

The `save_kwargs` dictionary built by `optimize_image`; absent keys are
`none`.  The initial dictionary is `\x7b'optimize': True\x7d`. -/

structure SaveKwargs where
  optimize : Bool := true
  quality : Option Nat := none
  progressive : Option Bool := none
  lossless : Option Bool := none
  compress_level : Option Nat := none
deriving DecidableEq, Repr

/-- Lines 121–133 of `optimize_image`: choose the output extension and the
save parameters from the lower-cased source suffix and the configuration. -/
def plan_encoding (out_ext0 : String) (quality : Nat) (convert_png_to_webp : Bool) :
    String × SaveKwargs :=
  let kw : SaveKwargs := {}
  if out_ext0 = ".jpg" ∨ out_ext0 = ".jpeg" then
    (out_ext0, { kw with quality := some quality, progressive := some true })
  else if out_ext0 = ".png" then
    if convert_png_to_webp then
      (".webp", { kw with quality := some quality, lossless := some false })
    else
      (out_ext0, { kw with compress_level := some 9 })
  else if out_ext0 = ".webp" then
    (out_ext0, { kw with quality := some quality })
  else (out_ext0, kw)

/-! ### Environment

The filesystem / image-library / subprocess effects that `optimize_image`
performs, as an oracle: decoding can fail (`UnidentifiedImageError` or any
other exception), `save` can raise, `exists` and `stat` answer queries,
and the `oxipng` subprocess either runs, is missing from PATH
(`FileNotFoundError`) or exits non-zero (`CalledProcessError`). -/

inductive DecodeOutcome where
  | ok (img : Img)
  | unidentified
  | err (msg : String)
deriving DecidableEq

inductive OxiOutcome where
  | applied
  | toolMissing
  | exitNonzero
deriving DecidableEq

structure Env where
  decode : FsPath → DecodeOutcome
  pathExists : FsPath → Bool
  save : FsPath → SaveKwargs → Option String
  statSize : FsPath → Nat
  oxi : FsPath → OxiOutcome

/-- Best-effort external compressor call: invoke oxipng in place if available; both
`FileNotFoundError` and `CalledProcessError` are swallowed, so every
outcome returns unit. -/
def call_oxipng (env : Env) (png_path : FsPath) : Unit :=
  match env.oxi png_path with
  | .applied => ()
  | .toolMissing => ()
  | .exitNonzero => ()

/-! ### The per-file pipeline -/

/-- Result of one `optimize_image` call: the updated stats, the log lines
put on the queue, the save calls attempted, the files actually written,
and the oxipng invocations. -/
structure FileResult where
  stats : Stats
  logs : List String
  attempted : List (FsPath × SaveKwargs)
  savedTo : List (FsPath × SaveKwargs)
  oxiCalls : List FsPath
deriving Repr

/-- Lines 135–138: destination before collision resolution —
`dest_dir / slug`, with the suffix swapped when the output extension
differs from the source's. -/
def dest_base (src : FsPath) (dest_dir : List String) (out_ext : String)
    (im : Img) : FsPath :=
  let dest0 : FsPath := { dir := dest_dir, name := slug_for src im }
  if out_ext ≠ (strLower src.suffix) then dest0.with_suffix out_ext else dest0

/-- The `FileResult` shared by the two `except` handlers: append `str(src)`
to `stats.failures` and log the given line. -/
def failResult (src : FsPath) (stats : Stats) (line : String) : FileResult :=
  { stats := { stats with failures := stats.failures ++ [pathStr src] },
    logs := [line], attempted := [], savedTo := [], oxiCalls := [] }

/-- Per-file pipeline `optimize_image(src, dest_dir, quality, convert_png_to_webp, stats,
log_queue)`: decode, strip metadata, plan the encoding, name the output,
resolve one collision, save, best-effort oxipng, then record sizes.
`UnidentifiedImageError` and every other exception become a failure entry
plus a log line; nothing propagates. -/
def optimize_image (src : FsPath) (dest_dir : List String) (quality : Nat)
    (convert_png_to_webp : Bool) (stats : Stats) (env : Env) : FileResult :=
  match env.decode src with
  | .unidentified =>
      failResult src stats ("✗ Skipped (not an image): " ++ pathStr src)
  | .err msg =>
      failResult src stats ("✗ Error processing " ++ pathStr src ++ ": " ++ msg)
  | .ok im0 =>
      let im := strip_exif im0
      let plan := plan_encoding (strLower src.suffix) quality convert_png_to_webp
      let out_ext := plan.1
      let save_kwargs := plan.2
      let dest1 := dest_base src dest_dir out_ext im
      let dest_path :=
        if env.pathExists dest1 then dest1.with_stem (dest1.stem ++ "-dup")
        else dest1
      match env.save dest_path save_kwargs with
      | some msg =>
          { failResult src stats
              ("✗ Error processing " ++ pathStr src ++ ": " ++ msg) with
            attempted := [(dest_path, save_kwargs)] }
      | none =>
          let oxiCalls :=
            if strLower dest_path.suffix = ".png" ∧ convert_png_to_webp = false
            then
              let _u := call_oxipng env dest_path
              [dest_path]
            else []
          let original_size := env.statSize src
          let new_size := env.statSize dest_path
          { stats := stats.add original_size new_size,
            logs := ["✓ " ++ src.name ++ " → " ++ dest_path.name],
            attempted := [(dest_path, save_kwargs)],
            savedTo := [(dest_path, save_kwargs)],
            oxiCalls := oxiCalls }

/-! ### The worker loop -/

inductive Event where
  | logLine (s : String)
  | progress (n : Nat)
  | done (st : Stats)
deriving DecidableEq

def isDone : Event → Bool
  | .done _ => true
  | _ => false

def isProgress : Event → Bool
  | .progress _ => true
  | _ => false

structure WorkerResult where
  events : List Event
  stats : Stats
  attempted : List (FsPath × SaveKwargs)
  savedTo : List (FsPath × SaveKwargs)

/-- The loop body of `App._worker`: per file, run `optimize_image`, emit its
log lines then a progress tick; after the last file, emit one `DONE`
event carrying the stats. -/
def workerLoop (files : List FsPath) (idx : Nat) (dest_dir : List String)
    (quality : Nat) (convert_png : Bool) (stats : Stats) (env : Env) :
    WorkerResult :=
  match files with
  | [] => { events := [.done stats], stats := stats, attempted := [], savedTo := [] }
  | f :: rest =>
      let r := optimize_image f dest_dir quality convert_png stats env
      let tail := workerLoop rest (idx + 1) dest_dir quality convert_png r.stats env
      { events := r.logs.map .logLine ++ [.progress idx] ++ tail.events,
        stats := tail.stats,
        attempted := r.attempted ++ tail.attempted,
        savedTo := r.savedTo ++ tail.savedTo }

/-- Model of App._worker: the destination directory is
`self.dest_folder or self.src_folder`, then each file is processed in
order with indices starting at 1. -/
def worker (files : List FsPath) (src_folder : List String)
    (dest_folder : Option (List String)) (quality : Nat) (convert_png : Bool)
    (stats : Stats) (env : Env) : WorkerResult :=
  let dest_dir := dest_folder.getD src_folder
  workerLoop files 1 dest_dir quality convert_png stats env

/-- Whether processing this file records a failure (its branch does not
depend on the incoming stats, see `optimize_image_savedTo_irrel`). -/
def fileFailed (src : FsPath) (dest_dir : List String) (quality : Nat)
    (convert_png : Bool) (env : Env) : Bool :=
  (optimize_image src dest_dir quality convert_png {} env).savedTo.isEmpty

/-- The destination path computed by lines 135–138 for a successfully
decoded image (before collision resolution), as used in `optimize_image`. -/
def planned_dest (src : FsPath) (d : List String) (q : Nat) (c : Bool)
    (im : Img) : FsPath :=
  dest_base src d (plan_encoding (strLower src.suffix) q c).1 (strip_exif im)

/-- The destination after the single-collision rule of lines 139–140. -/
def resolved_dest (src : FsPath) (d : List String) (q : Nat) (c : Bool)
    (env : Env) (im : Img) : FsPath :=
  if env.pathExists (planned_dest src d q c im) then
    (planned_dest src d q c im).with_stem
      ((planned_dest src d q c im).stem ++ "-dup")
  else planned_dest src d q c im

/-- The Stats states reachable during a run: the fresh `Stats()` made by
`_start`, closed under one `optimize_image` step. -/
inductive ReachableStats : Stats → Prop where
  | init : ReachableStats {}
  | step (s : Stats) (src : FsPath) (d : List String) (q : Nat) (c : Bool)
      (env : Env) : ReachableStats s →
      ReachableStats (optimize_image src d q c s env).stats

/-! ### Concrete fixtures for counterexamples and witnesses -/

def imgA : Img :=
  { width := 1, height := 1, mode := "RGB", data := [10, 20, 30], meta := [] }

/-- A benign environment: every file decodes to `imgA`, nothing exists at
any destination, saves succeed, every file has size 100, oxipng is absent. -/
def envA : Env where
  decode := fun _ => .ok imgA
  pathExists := fun _ => false
  save := fun _ _ => none
  statSize := fun _ => 100
  oxi := fun _ => .toolMissing

/-- Environment where decoding raises `UnidentifiedImageError`. -/
def envUnread : Env :=
  { envA with decode := fun _ => .unidentified }

/-- Environment where every destination path already exists. -/
def envCollide : Env :=
  { envA with pathExists := fun _ => true }

def srcSub : FsPath := { dir := ["root", "sub"], name := "a.jpg" }

def srcBroken : FsPath := { dir := ["root"], name := "broken.png" }

def srcIcon : FsPath := { dir := ["root"], name := "icon.png" }

/-- The one write performed by the run in `C1_counterexample`. -/
def savedA : FsPath × SaveKwargs :=
  ({ dir := ["root"], name := "a-1x1-659dda18.jpg" },
   { optimize := true, quality := some 85, progressive := some true })

/-! ### Sanity checks of the embedding

BLAKE2b digests compared against `hashlib.blake2b(digest_size=4)`
reference values, and the pathlib name split. -/

theorem blake2b4_empty : hexStr (blake2b4 []) = "1271cf25" := by decide

theorem blake2b4_abc : hexStr (blake2b4 [97, 98, 99]) = "63906248" := by decide

theorem blake2b4_one_full_block :
    hexStr (blake2b4 (List.range 128)) = "b36f9364" := by decide

theorem blake2b4_two_full_blocks :
    hexStr (blake2b4 (List.replicate 256 7)) = "bb190917" := by decide

theorem blake2b4_three_blocks :
    hexStr (blake2b4 ((List.range 300).map (· % 256))) = "dd84ce7c" := by decide

theorem splitStemSuffix_example :
    splitStemSuffix "a.b.jpg" = ("a.b", ".jpg") := by decide

/-! ### String and naming lemmas -/

theorem stringData_mk (l : List Char) : (String.mk l).data = l := rfl

theorem takeWhile_all_append {p : Char → Bool} (l1 : List Char) (x : Char)
    (l2 : List Char) (h1 : ∀ c ∈ l1, p c = true) (hx : p x = false) :
    ((l1 ++ x :: l2).takeWhile p) = l1 := by
  induction l1 with
  | nil => simp [List.takeWhile_cons, hx]
  | cons a l ih =>
    have ha : p a = true := h1 a (by simp)
    simp [List.takeWhile_cons, ha, ih (fun c hc => h1 c (by simp [hc]))]

/-- The pathlib split on a name of the shape `stem ++ "." ++ ext` with a
nonempty stem and a nonempty, dot-free extension. -/
theorem splitStemSuffix_data (name : String) (s ext : List Char)
    (hdata : name.data = s ++ '.' :: ext) (hs : s ≠ []) (hext : ext ≠ [])
    (hnd : ∀ c ∈ ext, c ≠ '.') :
    splitStemSuffix name = (⟨s⟩, ⟨'.' :: ext⟩) := by
  have hrev : (s ++ '.' :: ext).reverse = ext.reverse ++ '.' :: s.reverse := by
    simp
  have htw : ((s ++ '.' :: ext).reverse.takeWhile (fun c => c ≠ '.'))
      = ext.reverse := by
    rw [hrev]
    exact takeWhile_all_append ext.reverse '.' s.reverse
      (fun c hc => decide_eq_true (hnd c (List.mem_reverse.1 hc))) (by decide)
  have hslen : 0 < s.length := List.length_pos.2 hs
  have helen : 0 < ext.length := List.length_pos.2 hext
  simp only [splitStemSuffix, hdata, htw, List.length_reverse]
  have hcond : ext.length + 1 < (s ++ '.' :: ext).length := by
    simp only [List.length_append, List.length_cons]
    omega
  rw [if_pos ⟨hcond, helen⟩]
  have harg : (s ++ '.' :: ext).length - ext.length - 1 = s.length := by
    simp only [List.length_append, List.length_cons]
    omega
  rw [harg, List.take_left, List.drop_left]

/-- Stem and suffix of a path whose name has that shape. -/
theorem stem_suffix_of_data (p : FsPath) (s ext : List Char)
    (hdata : p.name.data = s ++ '.' :: ext) (hs : s ≠ []) (hext : ext ≠ [])
    (hnd : ∀ c ∈ ext, c ≠ '.') :
    p.stem = ⟨s⟩ ∧ p.suffix = ⟨'.' :: ext⟩ := by
  unfold FsPath.stem FsPath.suffix
  rw [splitStemSuffix_data p.name s ext hdata hs hext hnd]
  exact ⟨rfl, rfl⟩

theorem blake2b4_length (m : List Nat) : (blake2b4 m).length = 4 := rfl

theorem blake2b4_lt256 (m : List Nat) : ∀ b ∈ blake2b4 m, b < 256 := by
  intro b hb
  simp only [blake2b4, List.mem_cons, List.not_mem_nil, or_false] at hb
  rcases hb with h | h | h | h <;> subst h <;> exact Nat.mod_lt _ (by norm_num)

theorem hexStr_length (bs : List Nat) : (hexStr bs).length = 2 * bs.length := by
  show ((bs.map hexByte).flatten).length = 2 * bs.length
  induction bs with
  | nil => rfl
  | cons b l ih =>
    simp only [List.map_cons, List.flatten_cons, List.length_append, ih,
      hexByte, List.length_cons, List.length_nil]
    omega

theorem hexDigitChar_mem : ∀ n < 16,
    hexDigitChar n ∈ ("0123456789abcdef").data := by decide

theorem hexStr_mem (bs : List Nat) (hb : ∀ b ∈ bs, b < 256) :
    ∀ ch ∈ (hexStr bs).data, ch ∈ ("0123456789abcdef").data := by
  intro ch hch
  have hch2 : ch ∈ (bs.map hexByte).flatten := hch
  rcases List.mem_flatten.1 hch2 with ⟨l, hl, hcl⟩
  rcases List.mem_map.1 hl with ⟨b, hbmem, rfl⟩
  have hb256 := hb b hbmem
  rcases List.mem_cons.1 hcl with h | h
  · subst h
    exact hexDigitChar_mem _ (Nat.div_lt_of_lt_mul (by omega))
  · rcases List.mem_cons.1 h with h2 | h2
    · subst h2
      exact hexDigitChar_mem _ (Nat.mod_lt _ (by norm_num))
    · simp at h2

theorem pixel_digest_ne (im : Img) : (pixel_digest im).data ≠ [] := by
  intro h
  have h8 : (pixel_digest im).length = 8 := by
    show (hexStr (blake2b4 (im.data.take 32768))).length = 8
    rw [hexStr_length, blake2b4_length]
  rw [show (pixel_digest im).length = (pixel_digest im).data.length from rfl,
    h] at h8
  simp at h8

/-- The stem part of a slug is never empty. -/
theorem slugS_ne (src : FsPath) (im : Img) :
    (src.stem ++ "-" ++ toString im.width ++ "x" ++ toString im.height
      ++ "-" ++ pixel_digest im).data ≠ [] := by
  rw [String.data_append]
  intro h
  exact pixel_digest_ne im (List.append_eq_nil.1 h).2

/-- Stem and suffix of `dest_dir / slug_for(src, im)` when the lower-cased
source extension strips to a dot-free, nonempty `ext`. -/
theorem slug_stem_suffix (src : FsPath) (im : Img) (d : List String)
    (ext : List Char) (hext : ext ≠ []) (hnd : ∀ c ∈ ext, c ≠ '.')
    (hsl : lstripDot (strLower src.suffix) = ⟨ext⟩) :
    (FsPath.mk d (slug_for src im)).stem
      = src.stem ++ "-" ++ toString im.width ++ "x" ++ toString im.height
        ++ "-" ++ pixel_digest im
    ∧ (FsPath.mk d (slug_for src im)).suffix = ⟨'.' :: ext⟩ := by
  have hdata : (FsPath.mk d (slug_for src im)).name.data
      = (src.stem ++ "-" ++ toString im.width ++ "x" ++ toString im.height
          ++ "-" ++ pixel_digest im).data ++ '.' :: ext := by
    show (slug_for src im).data = _
    simp only [slug_for]
    rw [hsl, String.data_append, String.data_append, stringData_mk,
      show (".").data = ['.'] from rfl]
    simp
  exact stem_suffix_of_data _ _ ext hdata (slugS_ne src im) hext hnd

/-- Swapping the suffix for `.webp` keeps the stem. -/
theorem with_suffix_webp_stem (p : FsPath) (S : String) (hstem : p.stem = S)
    (hS : S.data ≠ []) : (p.with_suffix ".webp").stem = S := by
  have hdata : (p.with_suffix ".webp").name.data
      = S.data ++ '.' :: ['w', 'e', 'b', 'p'] := by
    show (p.stem ++ ".webp").data = _
    rw [hstem, String.data_append,
      show (".webp").data = '.' :: ['w', 'e', 'b', 'p'] from rfl]
  exact (stem_suffix_of_data _ _ _ hdata hS (by decide) (by decide)).1

/-! ### Structural lemmas about the per-file pipeline -/

/-- Every call either succeeds — one file written, stats accumulated with
the two measured sizes — or fails — nothing written, `str(src)` appended
to the failure list and no other change to the stats. -/
theorem oi_stats_cases (src : FsPath) (d : List String) (q : Nat) (c : Bool)
    (st : Stats) (env : Env) :
    (∃ dest kw, (optimize_image src d q c st env).savedTo = [(dest, kw)]
      ∧ (optimize_image src d q c st env).stats
          = st.add (env.statSize src) (env.statSize dest))
    ∨ ((optimize_image src d q c st env).savedTo = []
      ∧ (optimize_image src d q c st env).stats
          = { st with failures := st.failures ++ [pathStr src] }) := by
  cases hd : env.decode src with
  | unidentified => exact Or.inr (by simp [optimize_image, hd, failResult])
  | err m => exact Or.inr (by simp [optimize_image, hd, failResult])
  | ok im =>
    simp only [optimize_image, hd]
    split
    · exact Or.inr (by simp [failResult])
    · exact Or.inl ⟨_, _, rfl, rfl⟩

/-- Which branch is taken does not depend on the incoming stats. -/
theorem oi_savedTo_irrel (src : FsPath) (d : List String) (q : Nat) (c : Bool)
    (st st2 : Stats) (env : Env) :
    (optimize_image src d q c st env).savedTo
      = (optimize_image src d q c st2 env).savedTo := by
  cases hd : env.decode src with
  | unidentified => simp [optimize_image, hd, failResult]
  | err m => simp [optimize_image, hd, failResult]
  | ok im =>
    simp only [optimize_image, hd]
    split
    · next msg heq => simp [failResult, heq]
    · next heq => simp [heq]

/-- Effect of one file on the failure list, via `fileFailed`. -/
theorem oi_failures (src : FsPath) (d : List String) (q : Nat) (c : Bool)
    (st : Stats) (env : Env) :
    (optimize_image src d q c st env).stats.failures
      = st.failures ++ if fileFailed src d q c env then [pathStr src] else [] := by
  have hirr := oi_savedTo_irrel src d q c ({} : Stats) st env
  rcases oi_stats_cases src d q c st env with ⟨dest, kw, hsv, hst⟩ | ⟨hsv, hst⟩
  · have : fileFailed src d q c env = false := by
      simp [fileFailed, hirr, hsv]
    simp [hst, Stats.add, this]
  · have : fileFailed src d q c env = true := by
      simp [fileFailed, hirr, hsv]
    simp [hst, this]

/-- A decoded file is saved (or attempted) exactly at the resolved
destination; shape of the whole result on save failure. -/
theorem oi_save_fail_spec (src : FsPath) (d : List String) (q : Nat) (c : Bool)
    (st : Stats) (env : Env) (im : Img) (hdec : env.decode src = .ok im)
    (msg : String)
    (hs : env.save (resolved_dest src d q c env im)
        (plan_encoding (strLower src.suffix) q c).2 = some msg) :
    optimize_image src d q c st env
      = { failResult src st ("✗ Error processing " ++ pathStr src ++ ": " ++ msg)
          with attempted := [(resolved_dest src d q c env im,
                              (plan_encoding (strLower src.suffix) q c).2)] } := by
  simp only [resolved_dest, planned_dest] at hs ⊢
  simp only [optimize_image, hdec, hs]

/-- Shape of the whole result on success. -/
theorem oi_success_spec (src : FsPath) (d : List String) (q : Nat) (c : Bool)
    (st : Stats) (env : Env) (im : Img) (hdec : env.decode src = .ok im)
    (hs : env.save (resolved_dest src d q c env im)
        (plan_encoding (strLower src.suffix) q c).2 = none) :
    optimize_image src d q c st env
      = { stats := st.add (env.statSize src)
            (env.statSize (resolved_dest src d q c env im)),
          logs := ["✓ " ++ src.name ++ " → "
            ++ (resolved_dest src d q c env im).name],
          attempted := [(resolved_dest src d q c env im,
            (plan_encoding (strLower src.suffix) q c).2)],
          savedTo := [(resolved_dest src d q c env im,
            (plan_encoding (strLower src.suffix) q c).2)],
          oxiCalls :=
            if strLower (resolved_dest src d q c env im).suffix = ".png"
                ∧ c = false
            then [resolved_dest src d q c env im] else [] } := by
  simp only [resolved_dest, planned_dest] at hs ⊢
  simp only [optimize_image, hdec, hs]

/-- Changing the oxipng oracle changes nothing: both `FileNotFoundError`
and `CalledProcessError` are swallowed and the call's result is unused. -/
theorem oi_oxi_irrel (src : FsPath) (d : List String) (q : Nat) (c : Bool)
    (st : Stats) (env : Env) (f : FsPath → OxiOutcome) :
    optimize_image src d q c st { env with oxi := f }
      = optimize_image src d q c st env := rfl

/-- Every file actually written lands in the configured directory. -/
theorem oi_savedTo_dir (src : FsPath) (d : List String) (q : Nat) (c : Bool)
    (st : Stats) (env : Env) :
    ∀ pr ∈ (optimize_image src d q c st env).savedTo, pr.1.dir = d := by
  cases hd : env.decode src with
  | unidentified => simp [optimize_image, hd, failResult]
  | err m => simp [optimize_image, hd, failResult]
  | ok im =>
    simp only [optimize_image, hd]
    split
    · simp [failResult]
    · intro pr hpr
      simp only [List.mem_singleton] at hpr
      subst hpr
      simp only [dest_base, FsPath.with_stem, FsPath.with_suffix]
      split_ifs <;> rfl

theorem countP_logLine_done (ls : List String) :
    ((ls.map Event.logLine).countP isDone) = 0 := by
  induction ls with
  | nil => rfl
  | cons a l ih => simp [List.countP_cons, isDone, ih]

theorem countP_logLine_progress (ls : List String) :
    ((ls.map Event.logLine).countP isProgress) = 0 := by
  induction ls with
  | nil => rfl
  | cons a l ih => simp [List.countP_cons, isProgress, ih]

/-! ### Structural lemmas about the worker loop -/

/-- Exactly one `DONE` event per run. -/
theorem workerLoop_done_count (files : List FsPath) (i : Nat) (d : List String)
    (q : Nat) (c : Bool) (st : Stats) (env : Env) :
    ((workerLoop files i d q c st env).events.countP isDone) = 1 := by
  induction files generalizing i st with
  | nil => simp [workerLoop, List.countP_cons, isDone]
  | cons f rest ih =>
    simp [workerLoop, List.countP_append, List.countP_cons, isDone,
      countP_logLine_done, ih]

/-- The `DONE` event is last and carries the final stats. -/
theorem workerLoop_last_done (files : List FsPath) (i : Nat) (d : List String)
    (q : Nat) (c : Bool) (st : Stats) (env : Env) :
    (workerLoop files i d q c st env).events.getLast?
      = some (.done (workerLoop files i d q c st env).stats) := by
  induction files generalizing i st with
  | nil => simp [workerLoop]
  | cons f rest ih =>
    simp only [workerLoop]
    rw [List.getLast?_append, ih]
    rfl

/-- One progress tick per file. -/
theorem workerLoop_progress_count (files : List FsPath) (i : Nat)
    (d : List String) (q : Nat) (c : Bool) (st : Stats) (env : Env) :
    ((workerLoop files i d q c st env).events.countP isProgress)
      = files.length := by
  induction files generalizing i st with
  | nil => simp [workerLoop, List.countP_cons, isProgress]
  | cons f rest ih =>
    simp [workerLoop, List.countP_append, List.countP_cons, isProgress,
      countP_logLine_progress, ih]

/-- The failure list after a run: the incoming failures followed by the
paths of the failing files, in processing order. -/
theorem workerLoop_failures (files : List FsPath) (i : Nat) (d : List String)
    (q : Nat) (c : Bool) (st : Stats) (env : Env) :
    (workerLoop files i d q c st env).stats.failures
      = st.failures
        ++ (files.filter (fun f => fileFailed f d q c env)).map pathStr := by
  induction files generalizing i st with
  | nil => simp [workerLoop]
  | cons f rest ih =>
    show (workerLoop rest (i + 1) d q c
        (optimize_image f d q c st env).stats env).stats.failures = _
    rw [ih, oi_failures, List.filter_cons]
    by_cases h : fileFailed f d q c env <;> simp [h]

/-- Every write of the whole run lands in the configured directory. -/
theorem workerLoop_savedTo_dir (files : List FsPath) (i : Nat)
    (d : List String) (q : Nat) (c : Bool) (st : Stats) (env : Env) :
    ∀ pr ∈ (workerLoop files i d q c st env).savedTo, pr.1.dir = d := by
  induction files generalizing i st with
  | nil => simp [workerLoop]
  | cons f rest ih =>
    intro pr hpr
    rcases List.mem_append.1 hpr with h | h
    · exact oi_savedTo_dir f d q c st env pr h
    · exact ih _ _ pr h

/-! ### Claim theorems -/

/-- C2: every per-file error is converted into a recorded failure outcome
inside the pipeline — decode failure logs the Skipped line, any other
error logs the Failed line, both append `str(src)` to the failure list —
and never propagates out of `optimize_image`; the run processes all files
(one progress tick each) and always ends with exactly one `DONE` event,
emitted last, carrying the final stats. -/
theorem C2_errors_recorded_and_run_completes (src : FsPath) (d : List String)
    (q : Nat) (c : Bool) (st : Stats) (env : Env) (files : List FsPath)
    (i : Nat) :
    ((∃ dest, (optimize_image src d q c st env).stats
        = st.add (env.statSize src) (env.statSize dest))
      ∨ (optimize_image src d q c st env).stats
        = { st with failures := st.failures ++ [pathStr src] })
    ∧ (env.decode src = .unidentified →
        (optimize_image src d q c st env).logs
          = ["✗ Skipped (not an image): " ++ pathStr src])
    ∧ (∀ msg, env.decode src = .err msg →
        (optimize_image src d q c st env).logs
          = ["✗ Error processing " ++ pathStr src ++ ": " ++ msg])
    ∧ ((workerLoop files i d q c st env).events.countP isDone = 1)
    ∧ ((workerLoop files i d q c st env).events.getLast?
        = some (.done (workerLoop files i d q c st env).stats))
    ∧ ((workerLoop files i d q c st env).events.countP isProgress
        = files.length) := by
  refine ⟨?_, ?_, ?_, workerLoop_done_count files i d q c st env,
    workerLoop_last_done files i d q c st env,
    workerLoop_progress_count files i d q c st env⟩
  · rcases oi_stats_cases src d q c st env with ⟨dest, kw, _, hst⟩ | ⟨_, hst⟩
    · exact Or.inl ⟨dest, hst⟩
    · exact Or.inr hst
  · intro h
    simp [optimize_image, h, failResult]
  · intro msg h
    simp [optimize_image, h, failResult]

theorem C2_witness :
    (optimize_image srcBroken ["root"] 85 false {} envUnread).logs
      = ["✗ Skipped (not an image): root/broken.png"]
    ∧ ((workerLoop [srcBroken] 1 ["root"] 85 false {} envUnread).events.countP
        isDone = 1) := by
  have h := C2_errors_recorded_and_run_completes srcBroken ["root"] 85 false
    {} envUnread [srcBroken] 1
  refine ⟨?_, h.2.2.2.1⟩
  have h2 := h.2.1 rfl
  rw [h2]
  rfl

/-- C4: in every reachable Stats state `optimized_files ≤ total_files`;
one `optimize_image` step either accumulates all four counters together
(Success: both file counters +1, both byte totals grow by the measured
sizes) or — on Failed / Skipped-Unreadable — leaves all four unchanged. -/
theorem C4_stats_invariants :
    (∀ s, ReachableStats s → s.optimized_files ≤ s.total_files)
    ∧ (∀ src d q c (s : Stats) env,
        (∃ o n, (optimize_image src d q c s env).stats = s.add o n
          ∧ (optimize_image src d q c s env).savedTo ≠ [])
        ∨ ((optimize_image src d q c s env).stats.total_files = s.total_files
          ∧ (optimize_image src d q c s env).stats.optimized_files
              = s.optimized_files
          ∧ (optimize_image src d q c s env).stats.total_original_bytes
              = s.total_original_bytes
          ∧ (optimize_image src d q c s env).stats.total_optimized_bytes
              = s.total_optimized_bytes
          ∧ (optimize_image src d q c s env).savedTo = [])) := by
  constructor
  · intro s hs
    induction hs with
    | init => exact Nat.le_refl 0
    | step s src d q c env hs ih =>
      rcases oi_stats_cases src d q c s env with ⟨dest, kw, _, hst⟩ | ⟨_, hst⟩
      · rw [hst]
        exact Nat.succ_le_succ ih
      · rw [hst]
        exact ih
  · intro src d q c s env
    rcases oi_stats_cases src d q c s env with ⟨dest, kw, hsv, hst⟩ | ⟨hsv, hst⟩
    · refine Or.inl ⟨env.statSize src, env.statSize dest, hst, ?_⟩
      simp [hsv]
    · exact Or.inr ⟨by rw [hst], by rw [hst], by rw [hst], by rw [hst], hsv⟩

theorem C4_witness :
    (({} : Stats).optimized_files ≤ ({} : Stats).total_files)
    ∧ ((optimize_image srcSub ["root"] 85 false {} envA).stats.optimized_files
        ≤ (optimize_image srcSub ["root"] 85 false {} envA).stats.total_files) :=
  ⟨C4_stats_invariants.1 {} ReachableStats.init,
   C4_stats_invariants.1 _
     (ReachableStats.step {} srcSub ["root"] 85 false envA ReachableStats.init)⟩

/-- C8: the encoding plan is a pure function of the lower-cased source
extension and the configuration: jpg/jpeg keep their extension with the
configured quality, progressive and optimize on; png without conversion
keeps its extension with compress level 9 and optimize on; png with
conversion maps to `.webp` with the configured quality and lossless off;
webp keeps its extension with the configured quality and optimize on. -/
theorem C8_encoding_plan (q : Nat) (c : Bool) :
    plan_encoding ".jpg" q c
      = (".jpg", { optimize := true, quality := some q,
                   progressive := some true })
    ∧ plan_encoding ".jpeg" q c
      = (".jpeg", { optimize := true, quality := some q,
                    progressive := some true })
    ∧ plan_encoding ".png" q false
      = (".png", { optimize := true, compress_level := some 9 })
    ∧ plan_encoding ".png" q true
      = (".webp", { optimize := true, quality := some q,
                    lossless := some false })
    ∧ plan_encoding ".webp" q c
      = (".webp", { optimize := true, quality := some q }) :=
  ⟨rfl, rfl, rfl, rfl, rfl⟩

/-- C9: `percent_saved` is exactly 0 when `total_original_bytes` is 0 and
equals `100 * (o - n) / o` whenever `o > 0`. -/
theorem C9_percent_saved (s : Stats) :
    (s.total_original_bytes = 0 → s.percent_saved = 0)
    ∧ (0 < s.total_original_bytes →
        s.percent_saved
          = 100 * ((s.total_original_bytes : ℚ)
              - (s.total_optimized_bytes : ℚ)) / (s.total_original_bytes : ℚ)) := by
  constructor
  · intro h
    simp [Stats.percent_saved, h]
  · intro h
    have hne : s.total_original_bytes ≠ 0 := Nat.pos_iff_ne_zero.1 h
    simp [Stats.percent_saved, hne]

theorem C9_witness :
    ({ total_original_bytes := 4, total_optimized_bytes := 3 } : Stats).percent_saved
      = 100 * ((4 : ℚ) - (3 : ℚ)) / (4 : ℚ) :=
  (C9_percent_saved _).2 (by decide)

/-- C1 counterexample: with no destination configured, a file that lives in
a subdirectory of the scan root (`root/sub/a.jpg`) is written into the scan
root `root`, not into its own parent directory `root/sub`. -/
theorem C1_counterexample :
    ((worker [srcSub] ["root"] none 85 false {} envA).savedTo.map
        (fun pr => pr.1.dir)) = [["root"]]
    ∧ srcSub.dir = ["root", "sub"]
    ∧ (["root"] : List String) ≠ ["root", "sub"] :=
  ⟨by decide, by decide, by decide⟩

/-- C1 (amended): when no destination directory is configured, every
optimized file is written into the scan root directory (`src_folder`);
this coincides with a source file's own parent only for files directly in
the root. -/
theorem C1_no_dest_writes_into_scan_root (files : List FsPath)
    (src_folder : List String) (q : Nat) (c : Bool) (st : Stats) (env : Env) :
    ∀ pr ∈ (worker files src_folder none q c st env).savedTo,
      pr.1.dir = src_folder :=
  workerLoop_savedTo_dir files 1 src_folder q c st env

theorem C1_witness :
    savedA ∈ (worker [srcSub] ["root"] none 85 false {} envA).savedTo
    ∧ savedA.1.dir = ["root"] :=
  ⟨by decide,
   C1_no_dest_writes_into_scan_root [srcSub] ["root"] 85 false {} envA savedA
     (by decide)⟩

/-- C3 counterexample: the failure entry recorded for an unreadable file is
exactly `str(src)` — the path alone; it contains no reason text such as
"unreadable". -/
theorem C3_counterexample :
    (optimize_image srcBroken ["root"] 85 false {} envUnread).stats.failures
      = [pathStr srcBroken]
    ∧ pathStr srcBroken = "root/broken.png"
    ∧ isSubAt "unreadable".data "root/broken.png".data = false
    ∧ isSubAt "reason".data "root/broken.png".data = false :=
  ⟨by decide, by decide, by decide, by decide⟩

/-- C3 (amended): each failed or skipped file contributes exactly its path
string (no reason) to `Stats.failures`, and the list preserves processing
order: after a run it is the incoming failures followed by the paths of
the failing files in order.  The human-readable reason goes only to the
log queue. -/
theorem C3_failures_are_paths_in_order (files : List FsPath) (i : Nat)
    (d : List String) (q : Nat) (c : Bool) (st : Stats) (env : Env) :
    (workerLoop files i d q c st env).stats.failures
      = st.failures
        ++ (files.filter (fun f => fileFailed f d q c env)).map pathStr :=
  workerLoop_failures files i d q c st env

/-- C6: when the computed destination path already exists the pipeline
attempts the write at the path whose stem has `"-dup"` appended exactly
once; when it does not exist, no `"-dup"` suffix is added. -/
theorem C6_single_collision_rule (src : FsPath) (d : List String) (q : Nat)
    (c : Bool) (st : Stats) (env : Env) (im : Img)
    (hdec : env.decode src = .ok im) :
    (env.pathExists (planned_dest src d q c im) = true →
      (optimize_image src d q c st env).attempted
        = [((planned_dest src d q c im).with_stem
              ((planned_dest src d q c im).stem ++ "-dup"),
            (plan_encoding (strLower src.suffix) q c).2)]
      ∧ ((planned_dest src d q c im).with_stem
            ((planned_dest src d q c im).stem ++ "-dup")).name
          = (planned_dest src d q c im).stem ++ "-dup"
            ++ (planned_dest src d q c im).suffix)
    ∧ (env.pathExists (planned_dest src d q c im) = false →
      (optimize_image src d q c st env).attempted
        = [(planned_dest src d q c im,
            (plan_encoding (strLower src.suffix) q c).2)]) := by
  have key : (optimize_image src d q c st env).attempted
      = [(resolved_dest src d q c env im,
          (plan_encoding (strLower src.suffix) q c).2)] := by
    cases hs : env.save (resolved_dest src d q c env im)
        (plan_encoding (strLower src.suffix) q c).2 with
    | none => rw [oi_success_spec src d q c st env im hdec hs]
    | some msg => rw [oi_save_fail_spec src d q c st env im hdec msg hs]
  constructor
  · intro h
    refine ⟨?_, rfl⟩
    rw [key, resolved_dest, if_pos h]
  · intro h
    rw [key, resolved_dest, if_neg (by simp [h])]

theorem C6_witness :
    (optimize_image srcIcon ["root"] 85 false {} envCollide).attempted
      = [((planned_dest srcIcon ["root"] 85 false imgA).with_stem
            ((planned_dest srcIcon ["root"] 85 false imgA).stem ++ "-dup"),
          (plan_encoding (strLower srcIcon.suffix) 85 false).2)] :=
  ((C6_single_collision_rule srcIcon ["root"] 85 false {} envCollide imgA
      rfl).1 rfl).1

/-- C7: oxipng is invoked exactly when the written output's extension is
`.png` and PNG→WebP conversion is off; it is best-effort — replacing the
oxipng oracle (absence, non-zero exit, success) changes neither the stats
nor the written files nor the log lines, so a Success outcome stays a
Success. -/
theorem C7_oxipng_best_effort (src : FsPath) (d : List String) (q : Nat)
    (c : Bool) (st : Stats) (env : Env) :
    (∀ p kw, (optimize_image src d q c st env).savedTo = [(p, kw)] →
        (optimize_image src d q c st env).oxiCalls
          = if strLower p.suffix = ".png" ∧ c = false then [p] else [])
    ∧ ((optimize_image src d q c st env).savedTo = [] →
        (optimize_image src d q c st env).oxiCalls = [])
    ∧ (∀ f : FsPath → OxiOutcome,
        (optimize_image src d q c st { env with oxi := f }).stats
          = (optimize_image src d q c st env).stats
        ∧ (optimize_image src d q c st { env with oxi := f }).savedTo
          = (optimize_image src d q c st env).savedTo
        ∧ (optimize_image src d q c st { env with oxi := f }).logs
          = (optimize_image src d q c st env).logs) := by
  refine ⟨?_, ?_, fun f => by rw [oi_oxi_irrel]; exact ⟨rfl, rfl, rfl⟩⟩
  · intro p kw h
    cases hd : env.decode src with
    | unidentified => simp [optimize_image, hd, failResult] at h
    | err m => simp [optimize_image, hd, failResult] at h
    | ok im =>
      cases hs : env.save (resolved_dest src d q c env im)
          (plan_encoding (strLower src.suffix) q c).2 with
      | some msg =>
        rw [oi_save_fail_spec src d q c st env im hd msg hs] at h
        simp [failResult] at h
      | none =>
        rw [oi_success_spec src d q c st env im hd hs] at h ⊢
        simp only [List.cons.injEq, Prod.mk.injEq, and_true] at h
        rw [← h.1]
  · intro h
    cases hd : env.decode src with
    | unidentified => simp [optimize_image, hd, failResult]
    | err m => simp [optimize_image, hd, failResult]
    | ok im =>
      cases hs : env.save (resolved_dest src d q c env im)
          (plan_encoding (strLower src.suffix) q c).2 with
      | some msg =>
        rw [oi_save_fail_spec src d q c st env im hd msg hs]
        rfl
      | none =>
        rw [oi_success_spec src d q c st env im hd hs] at h
        simp at h

theorem C7_witness :
    (optimize_image srcIcon ["root"] 85 false {} envA).oxiCalls
      = [resolved_dest srcIcon ["root"] 85 false envA imgA]
    ∧ (optimize_image srcIcon ["root"] 85 false {}
        { envA with oxi := fun _ => .exitNonzero }).stats
      = (optimize_image srcIcon ["root"] 85 false {} envA).stats := by
  have h := C7_oxipng_best_effort srcIcon ["root"] 85 false {} envA
  refine ⟨?_, (h.2.2 (fun _ => .exitNonzero)).1⟩
  have h1 := h.1 (resolved_dest srcIcon ["root"] 85 false envA imgA)
    (plan_encoding (strLower srcIcon.suffix) 85 false).2
    (by rw [oi_success_spec srcIcon ["root"] 85 false {} envA imgA rfl rfl])
  rw [h1, if_pos (by exact ⟨by decide, rfl⟩)]

/-- C10: if both the computed destination and its `-dup` variant already
exist, the pipeline still writes to the `-dup` path (no further renaming),
the save succeeding means the existing `-dup` file is silently overwritten,
and the file is recorded as a Success: stats accumulated, no failure
entry. -/
theorem C10_second_collision_overwrites (src : FsPath) (d : List String)
    (q : Nat) (c : Bool) (st : Stats) (env : Env) (im : Img)
    (hdec : env.decode src = .ok im)
    (hbase : env.pathExists (planned_dest src d q c im) = true)
    (hdup : env.pathExists ((planned_dest src d q c im).with_stem
        ((planned_dest src d q c im).stem ++ "-dup")) = true)
    (hsave : env.save ((planned_dest src d q c im).with_stem
        ((planned_dest src d q c im).stem ++ "-dup"))
        (plan_encoding (strLower src.suffix) q c).2 = none) :
    (optimize_image src d q c st env).attempted
      = [((planned_dest src d q c im).with_stem
            ((planned_dest src d q c im).stem ++ "-dup"),
          (plan_encoding (strLower src.suffix) q c).2)]
    ∧ (optimize_image src d q c st env).savedTo
      = [((planned_dest src d q c im).with_stem
            ((planned_dest src d q c im).stem ++ "-dup"),
          (plan_encoding (strLower src.suffix) q c).2)]
    ∧ (optimize_image src d q c st env).stats
      = st.add (env.statSize src)
          (env.statSize ((planned_dest src d q c im).with_stem
            ((planned_dest src d q c im).stem ++ "-dup")))
    ∧ (optimize_image src d q c st env).stats.failures = st.failures := by
  have hres : resolved_dest src d q c env im
      = (planned_dest src d q c im).with_stem
          ((planned_dest src d q c im).stem ++ "-dup") := by
    rw [resolved_dest, if_pos hbase]
  rw [oi_success_spec src d q c st env im hdec (by rw [hres]; exact hsave)]
  rw [hres]
  exact ⟨rfl, rfl, rfl, rfl⟩

/-- C5: the output name is a deterministic function of the source stem,
decoded dimensions and decoded pixel content: the slug is
`"<stem>-<width>x<height>-<digest>.<ext>"` where the digest is the BLAKE2b
(digest size 4) hex digest — exactly 8 lowercase hex characters — of the
first 32768 bytes of the raw decoded pixel buffer; equal stems, suffixes,
dimensions and pixel prefixes give identical slugs; and for a PNG source,
turning PNG→WebP conversion on changes only the destination suffix, never
the destination stem (hence never the digest). -/
theorem C5_content_addressed_naming (src src2 : FsPath) (img img2 : Img)
    (d : List String) (q q2 : Nat) :
    slug_for src img
      = src.stem ++ "-" ++ toString img.width ++ "x" ++ toString img.height
        ++ "-" ++ pixel_digest img ++ "." ++ lstripDot (strLower src.suffix)
    ∧ pixel_digest img = hexStr (blake2b4 (img.data.take 32768))
    ∧ (pixel_digest img).length = 8
    ∧ (∀ ch ∈ (pixel_digest img).data, ch ∈ ("0123456789abcdef").data)
    ∧ (src.stem = src2.stem → src.suffix = src2.suffix
        → img.width = img2.width → img.height = img2.height
        → img.data.take 32768 = img2.data.take 32768
        → slug_for src img = slug_for src2 img2)
    ∧ (strLower src.suffix = ".png" →
        (planned_dest src d q true img).stem
          = (planned_dest src d q2 false img).stem) := by
  refine ⟨rfl, rfl, ?_, ?_, ?_, ?_⟩
  · show (hexStr (blake2b4 (img.data.take 32768))).length = 8
    rw [hexStr_length, blake2b4_length]
  · exact hexStr_mem _ (blake2b4_lt256 _)
  · intro h1 h2 h3 h4 h5
    simp only [slug_for, pixel_digest, h1, h2, h3, h4, h5]
  · intro hpng
    have hlstrip : lstripDot (strLower src.suffix) = ⟨['p', 'n', 'g']⟩ := by
      rw [hpng]
      rfl
    have hsp := slug_stem_suffix src (strip_exif img) d ['p', 'n', 'g']
      (by decide) (by decide) hlstrip
    have hA : planned_dest src d q true img
        = (FsPath.mk d (slug_for src (strip_exif img))).with_suffix ".webp" := by
      simp only [planned_dest, dest_base]
      rw [hpng, show (plan_encoding ".png" q true).1 = ".webp" from rfl,
        if_pos (show (".webp" : String) ≠ ".png" by decide)]
    have hB : planned_dest src d q2 false img
        = FsPath.mk d (slug_for src (strip_exif img)) := by
      simp only [planned_dest, dest_base]
      rw [hpng, show (plan_encoding ".png" q2 false).1 = ".png" from rfl,
        if_neg (show ¬ ((".png" : String) ≠ ".png") by simp)]
    rw [hA, hB, with_suffix_webp_stem _ _ hsp.1 (slugS_ne src (strip_exif img)),
      hsp.1]

theorem C5_witness :
    slug_for srcIcon imgA
      = srcIcon.stem ++ "-" ++ toString imgA.width ++ "x"
        ++ toString imgA.height ++ "-" ++ pixel_digest imgA ++ "."
        ++ lstripDot (strLower srcIcon.suffix)
    ∧ (planned_dest srcIcon ["root"] 70 true imgA).stem
      = (planned_dest srcIcon ["root"] 70 false imgA).stem
    ∧ slug_for srcIcon imgA = slug_for srcIcon imgA := by
  have h := C5_content_addressed_naming srcIcon srcIcon imgA imgA ["root"] 70 70
  exact ⟨h.1, h.2.2.2.2.2 (by decide),
    h.2.2.2.2.1 rfl rfl rfl rfl rfl⟩

theorem C10_witness :
    (optimize_image srcIcon ["root"] 85 false {} envCollide).savedTo
      = [((planned_dest srcIcon ["root"] 85 false imgA).with_stem
            ((planned_dest srcIcon ["root"] 85 false imgA).stem ++ "-dup"),
          (plan_encoding (strLower srcIcon.suffix) 85 false).2)]
    ∧ (optimize_image srcIcon ["root"] 85 false {} envCollide).stats.failures
      = [] :=
  ⟨(C10_second_collision_overwrites srcIcon ["root"] 85 false {} envCollide
      imgA rfl rfl rfl rfl).2.1,
   (C10_second_collision_overwrites srcIcon ["root"] 85 false {} envCollide
      imgA rfl rfl rfl rfl).2.2.2⟩
